import Mathlib

/-!
# Verification of the gymlog caching and service layer

Shallow embedding of the in-memory cache (`src/utils/cache.ts`), its
invalidation policy, and the service-layer operations
(`ExerciseService.createExercise`, `ExerciseService.addSet`,
`ExerciseService.deleteSet`, `WorkoutService.getOrCreateSession`) over an
explicit database state.

Modelling conventions:
* A JavaScript `Map<string, α>` is an association list `List (String × α)`
  with the usual `Map` semantics: `get` finds the first binding, `set`
  replaces in place (or appends a fresh binding), `delete` removes the
  binding.  Real `Map`s never hold duplicate keys, so lemmas that need it
  take a `Nodup` hypothesis on the key list.
* Times (`Date.now()` values) and TTLs are `Int` (JS number subtraction on
  in-range integers).
* A cached value of TypeScript type `T | null` is an `Option V`:
  `none` models the JS value `null`, which `CacheManager.get` also uses as
  its "absent" sentinel.
* Numeric inputs (weight, reps) are modelled as `Int`: the claims only
  involve sign comparisons and exact copies, on which IEEE doubles agree
  with the integers appearing in the program's inputs.
* `async`/`await` sequencing is modelled by explicit state passing; a
  rejected promise is an `Except.error`.
-/

namespace GymLog

/-! ## JS `Map` as an association list -/

/-- `Map.get`: first binding for the key, if any. -/
def mapGet {α : Type} : List (String × α) → String → Option α
  | [], _ => none
  | (k', v) :: rest, k => if k' = k then some v else mapGet rest k

/-- `Map.set`: replace the binding in place, or append a fresh one. -/
def mapSet {α : Type} : List (String × α) → String → α → List (String × α)
  | [], k, v => [(k, v)]
  | (k', v') :: rest, k, v =>
      if k' = k then (k, v) :: rest else (k', v') :: mapSet rest k v

/-- `Map.delete`: remove the binding for the key. -/
def mapDelete {α : Type} : List (String × α) → String → List (String × α)
  | [], _ => []
  | (k', v') :: rest, k => if k' = k then rest else (k', v') :: mapDelete rest k

/-- Keys of a map, in insertion order. -/
def mapKeys {α : Type} (m : List (String × α)) : List String :=
  m.map Prod.fst

theorem mapGet_eq_none_iff {α : Type} {m : List (String × α)} {k : String} :
    mapGet m k = none ↔ k ∉ mapKeys m := by
  induction m with
  | nil => simp [mapGet, mapKeys]
  | cons hd tl ih =>
      obtain ⟨k', v⟩ := hd
      by_cases h : k' = k
      · subst h
        simp [mapGet, mapKeys]
      · simp [mapGet, mapKeys, h, ih, Ne.symm h]

theorem mapDelete_sublist {α : Type} (m : List (String × α)) (k : String) :
    (mapDelete m k).Sublist m := by
  induction m with
  | nil => simp [mapDelete]
  | cons hd tl ih =>
      obtain ⟨k', v⟩ := hd
      by_cases h : k' = k
      · simp only [mapDelete, if_pos h]
        exact List.sublist_cons_self _ _
      · simp only [mapDelete, if_neg h]
        exact List.Sublist.cons₂ _ ih

theorem nodup_mapDelete {α : Type} {m : List (String × α)} (k : String)
    (h : (mapKeys m).Nodup) : (mapKeys (mapDelete m k)).Nodup :=
  h.sublist ((mapDelete_sublist m k).map Prod.fst)

theorem mapGet_mapDelete {α : Type} {m : List (String × α)} (k j : String)
    (h : (mapKeys m).Nodup) :
    mapGet (mapDelete m k) j = if j = k then none else mapGet m j := by
  induction m with
  | nil => simp [mapDelete, mapGet]
  | cons hd tl ih =>
      obtain ⟨k', v⟩ := hd
      simp only [mapKeys, List.map_cons, List.nodup_cons] at h
      by_cases hk : k' = k
      · subst hk
        by_cases hj : j = k'
        · subst hj
          simp [mapDelete, mapGet, mapGet_eq_none_iff.2 h.1]
        · have hne : ¬ k' = j := fun hc => hj hc.symm
          simp [mapDelete, mapGet, hj, hne]
      · by_cases hj : k' = j
        · subst hj
          simp [mapDelete, mapGet, hk]
        · simp [mapDelete, mapGet, hk, hj, ih h.2]

theorem mapSet_cons_self {α : Type} (k : String) (v' v : α)
    (tl : List (String × α)) : mapSet ((k, v') :: tl) k v = (k, v) :: tl := by
  simp [mapSet]

theorem mapSet_cons_ne {α : Type} {k' k : String} (h : ¬ k' = k) (v' v : α)
    (tl : List (String × α)) :
    mapSet ((k', v') :: tl) k v = (k', v') :: mapSet tl k v := by
  simp [mapSet, h]

theorem mem_mapKeys_mapSet {α : Type} {m : List (String × α)} (k j : String)
    (v : α) : j ∈ mapKeys (mapSet m k v) ↔ j ∈ mapKeys m ∨ j = k := by
  induction m with
  | nil => simp [mapSet, mapKeys]
  | cons hd tl ih =>
      obtain ⟨k', v'⟩ := hd
      by_cases h : k' = k
      · subst h
        rw [mapSet_cons_self]
        simp only [mapKeys, List.map_cons, List.mem_cons]
        tauto
      · rw [mapSet_cons_ne h]
        simp only [mapKeys, List.map_cons, List.mem_cons]
        simp only [mapKeys] at ih
        tauto

theorem nodup_mapSet {α : Type} {m : List (String × α)} (k : String) (v : α)
    (h : (mapKeys m).Nodup) : (mapKeys (mapSet m k v)).Nodup := by
  induction m with
  | nil => simp [mapSet, mapKeys]
  | cons hd tl ih =>
      obtain ⟨k', v'⟩ := hd
      simp only [mapKeys, List.map_cons, List.nodup_cons] at h
      by_cases hk : k' = k
      · subst hk
        rw [mapSet_cons_self]
        simp only [mapKeys, List.map_cons, List.nodup_cons]
        exact ⟨h.1, h.2⟩
      · rw [mapSet_cons_ne hk]
        simp only [mapKeys, List.map_cons, List.nodup_cons]
        refine ⟨fun hc => ?_, ih h.2⟩
        rcases (mem_mapKeys_mapSet k k' v).1 hc with h1 | h1
        · exact h.1 h1
        · exact hk h1

theorem mapGet_mapSet_self {α : Type} (m : List (String × α)) (k : String)
    (v : α) : mapGet (mapSet m k v) k = some v := by
  induction m with
  | nil => simp [mapSet, mapGet]
  | cons hd tl ih =>
      obtain ⟨k', v'⟩ := hd
      by_cases h : k' = k
      · simp [mapSet, h, mapGet]
      · simp [mapSet, h, mapGet, ih]

/-! ## Cache store (`CacheManager`, src/utils/cache.ts) -/

/-- `interface CacheEntry<T>` — `data` is `Option V` because the stored
JS value may itself be `null` (`none`). -/
structure CacheEntry (V : Type) where
  data : Option V
  timestamp : Int
  ttl : Int
deriving Repr, DecidableEq

/-- The two mutable maps of a `CacheManager` instance. -/
structure CacheState (V : Type) where
  cache : List (String × CacheEntry V)
  dependencies : List (String × List String)
deriving Repr, DecidableEq

/-- `DEFAULT_TTL = 5 * 60 * 1000` (five minutes, in milliseconds). -/
def DEFAULT_TTL : Int := 5 * 60 * 1000

/-- Resolve an optional TTL argument exactly as the optional parameter
`ttl: number = this.DEFAULT_TTL` does. -/
def resolveTtl (ttl : Option Int) : Int := ttl.getD DEFAULT_TTL

namespace CacheManager

/-- `get<T>(key)`: absent keys and entries past their TTL yield `none`;
an expired entry is deleted on the way out.  Returns the value
(`entry.data`, itself possibly the JS `null`) and the updated state. -/
def get {V : Type} (st : CacheState V) (key : String) (now : Int) :
    Option V × CacheState V :=
  match mapGet st.cache key with
  | none => (none, st)
  | some entry =>
      if now - entry.timestamp > entry.ttl then
        (none, { st with cache := mapDelete st.cache key })
      else
        (entry.data, st)

/-- `set<T>(key, data, ttl = DEFAULT_TTL)`. -/
def set {V : Type} (st : CacheState V) (key : String) (data : Option V)
    (ttl : Option Int) (now : Int) : CacheState V :=
  { st with
    cache := mapSet st.cache key
      { data := data, timestamp := now, ttl := resolveTtl ttl } }

/-- `getOrFetch<T>(key, fetchFn, ttl?)`.  The fetch function is modelled by
the value `fetched` it would resolve to; the returned `Bool` records
whether the fetch function was invoked (i.e. the cache missed). -/
def getOrFetch {V : Type} (st : CacheState V) (key : String)
    (fetched : Option V) (ttl : Option Int) (now : Int) :
    Option V × CacheState V × Bool :=
  let res := get st key now
  match res.1 with
  | some v => (some v, res.2, false)
  | none => (fetched, set res.2 key fetched ttl now, true)

/-- `invalidate(key)`: delete the key, then delete each key in the
dependency set registered for it (one level, no recursion). -/
def invalidate {V : Type} (st : CacheState V) (key : String) : CacheState V :=
  let cache1 := mapDelete st.cache key
  match mapGet st.dependencies key with
  | none => { st with cache := cache1 }
  | some deps =>
      { st with cache := deps.foldl (fun c d => mapDelete c d) cache1 }

/-- `invalidatePattern(pattern)`: collect the currently stored keys the
compiled regular expression accepts, then `invalidate` each of them.
The compiled regex's `test` is abstracted as the predicate `test`. -/
def invalidatePattern {V : Type} (st : CacheState V)
    (test : String → Bool) : CacheState V :=
  let keysToDelete := (mapKeys st.cache).filter test
  keysToDelete.foldl (fun s k => invalidate s k) st

/-- `addDependency(parentKey, ...childKeys)`: `Set.add` each child key. -/
def addDependency {V : Type} (st : CacheState V) (parentKey : String)
    (childKeys : List String) : CacheState V :=
  let deps := (mapGet st.dependencies parentKey).getD []
  let deps' := childKeys.foldl
    (fun ds k => if ds.contains k then ds else ds ++ [k]) deps
  { st with dependencies := mapSet st.dependencies parentKey deps' }

/-- `cleanup()`: sweep all entries whose TTL has elapsed. -/
def cleanup {V : Type} (st : CacheState V) (now : Int) : CacheState V :=
  let keysToDelete :=
    (st.cache.filter (fun e => now - e.2.timestamp > e.2.ttl)).map Prod.fst
  { st with cache := keysToDelete.foldl (fun c k => mapDelete c k) st.cache }

end CacheManager

/-- Does the first character list start with the second? -/
def charsStartWith : List Char → List Char → Bool
  | _, [] => true
  | [], _ :: _ => false
  | c :: cs, p :: ps => p == c && charsStartWith cs ps

/-- Does the pattern occur as a contiguous run inside the character list? -/
def charsContain (p : List Char) : List Char → Bool
  | [] => charsStartWith [] p
  | c :: cs => charsStartWith (c :: cs) p || charsContain p cs

/-- `new RegExp(pattern).test(key)` for the metacharacter-free patterns this
repository passes to `invalidatePattern` (`'exercises:'`, `'tags:'`,
`'sessions:'`, `'calendar:'`) is an unanchored literal search: it holds
iff the pattern occurs as a contiguous substring of the key. -/
def regexTest (pattern key : String) : Bool :=
  charsContain pattern.toList key.toList

/-! ## Cache key builders (`CacheKeys`) -/

namespace CacheKeys

def allExercises : String := "exercises:all"
def exerciseById (id : Int) : String := "exercises:" ++ toString id
def exercisesByTag (tagId : Int) : String := "exercises:tag:" ++ toString tagId
def recentExercises : String := "exercises:recent"
def favoriteExercises : String := "exercises:favorites"
def allTags : String := "tags:all"
def tagById (id : Int) : String := "tags:" ++ toString id
def sessionById (id : Int) : String := "sessions:" ++ toString id
def sessionsByDate (date : String) : String := "sessions:date:" ++ date
def setsBySession (sessionId : Int) : String :=
  "sets:session:" ++ toString sessionId
def setsByExercise (exerciseId : Int) : String :=
  "sets:exercise:" ++ toString exerciseId

end CacheKeys

/-! ## Invalidation policy (`CacheInvalidation`) -/

namespace CacheInvalidation

/-- `onExerciseChange(exerciseId?)`.  The JS guard `if (exerciseId)` is
falsy exactly when the id is absent or `0`. -/
def onExerciseChange {V : Type} (st : CacheState V)
    (exerciseId : Option Int) : CacheState V :=
  let st := CacheManager.invalidatePattern st (regexTest "exercises:")
  match exerciseId with
  | none => st
  | some id =>
      if id = 0 then st
      else
        CacheManager.invalidate
          (CacheManager.invalidate st (CacheKeys.exerciseById id))
          (CacheKeys.setsByExercise id)

/-- `onSessionChange(sessionId?, date?)`.  `if (sessionId)` is falsy for
`0`; `if (date)` is falsy for the empty string. -/
def onSessionChange {V : Type} (st : CacheState V)
    (sessionId : Option Int) (date : Option String) : CacheState V :=
  let st := CacheManager.invalidatePattern st (regexTest "sessions:")
  let st := CacheManager.invalidatePattern st (regexTest "calendar:")
  let st :=
    match sessionId with
    | none => st
    | some id =>
        if id = 0 then st
        else
          CacheManager.invalidate
            (CacheManager.invalidate st (CacheKeys.sessionById id))
            (CacheKeys.setsBySession id)
  match date with
  | none => st
  | some d =>
      if d = "" then st
      else CacheManager.invalidate st (CacheKeys.sessionsByDate d)

/-- `onSetChange(sessionId, exerciseId)`: four exact-key invalidations. -/
def onSetChange {V : Type} (st : CacheState V)
    (sessionId exerciseId : Int) : CacheState V :=
  let st := CacheManager.invalidate st (CacheKeys.setsBySession sessionId)
  let st := CacheManager.invalidate st (CacheKeys.setsByExercise exerciseId)
  let st := CacheManager.invalidate st CacheKeys.recentExercises
  CacheManager.invalidate st (CacheKeys.sessionById sessionId)

end CacheInvalidation

/-! ## Characterization lemmas for the cache operations -/

theorem mapGet_foldl_mapDelete {α : Type} (ks : List String) :
    ∀ (m : List (String × α)) (j : String), (mapKeys m).Nodup →
      mapGet (ks.foldl (fun c d => mapDelete c d) m) j =
        if j ∈ ks then none else mapGet m j := by
  induction ks with
  | nil => intro m j _; simp
  | cons k ks ih =>
      intro m j h
      simp only [List.foldl_cons]
      rw [ih (mapDelete m k) j (nodup_mapDelete k h), mapGet_mapDelete k j h]
      by_cases h1 : j ∈ ks
      · simp [h1]
      · by_cases h2 : j = k <;> simp [h1, h2]

theorem invalidate_of_dependencies_nil {V : Type} (st : CacheState V)
    (h : st.dependencies = []) (k : String) :
    CacheManager.invalidate st k = { st with cache := mapDelete st.cache k } := by
  simp [CacheManager.invalidate, h, mapGet]

theorem foldl_invalidate_of_dependencies_nil {V : Type} (ks : List String) :
    ∀ st : CacheState V, st.dependencies = [] →
      ks.foldl (fun s k => CacheManager.invalidate s k) st =
        { st with cache := ks.foldl (fun c d => mapDelete c d) st.cache } := by
  induction ks with
  | nil => intro st _; rfl
  | cons k ks ih =>
      intro st h
      simp only [List.foldl_cons]
      rw [invalidate_of_dependencies_nil st h k]
      exact ih _ h

/-- `invalidate` removes exactly the key itself and its directly registered
dependents: a single level of the dependency graph, no multi-hop chains. -/
theorem invalidate_one_level {V : Type} (st : CacheState V) (k : String)
    (hnodup : (mapKeys st.cache).Nodup) (j : String) :
    mapGet (CacheManager.invalidate st k).cache j =
      if j = k ∨ j ∈ (mapGet st.dependencies k).getD [] then none
      else mapGet st.cache j := by
  rcases hdep : mapGet st.dependencies k with _ | deps
  · simp only [CacheManager.invalidate, hdep]
    rw [mapGet_mapDelete k j hnodup]
    simp
  · simp only [CacheManager.invalidate, hdep]
    rw [mapGet_foldl_mapDelete deps (mapDelete st.cache k) j
      (nodup_mapDelete k hnodup), mapGet_mapDelete k j hnodup]
    by_cases h1 : j ∈ deps
    · simp [h1]
    · by_cases h2 : j = k <;> simp [h1, h2]

/-! ## Claim theorems: cache store and invalidation policy -/

/-- **C2.** `invalidatePattern` removes exactly the currently-stored keys
accepted by the pattern's compiled regular expression (abstracted as the
predicate `test`) and leaves every other entry untouched.  The dependency
map is empty — `addDependency` is never invoked anywhere in this
repository, so every reachable `CacheManager` state satisfies this. -/
theorem invalidatePattern_removes_exactly_matching (V : Type)
    (st : CacheState V) (test : String → Bool)
    (hdeps : st.dependencies = [])
    (hnodup : (mapKeys st.cache).Nodup) (j : String) :
    mapGet (CacheManager.invalidatePattern st test).cache j =
      if test j then none else mapGet st.cache j := by
  simp only [CacheManager.invalidatePattern]
  rw [foldl_invalidate_of_dependencies_nil _ st hdeps]
  simp only
  rw [mapGet_foldl_mapDelete _ st.cache j hnodup]
  by_cases ht : test j
  · by_cases hm : j ∈ mapKeys st.cache
    · simp [List.mem_filter, ht, hm]
    · simp [List.mem_filter, hm, mapGet_eq_none_iff.2 hm, ht]
  · simp [List.mem_filter, ht]

/-- Witness for C2: the spec's concrete example.  With keys
`exercises:all`, `exercises:42`, `exercise_tags:1` stored, invalidating
pattern `exercises:` removes the first two and leaves the third. -/
theorem invalidatePattern_removes_exactly_matching_witness :
    (mapGet (CacheManager.invalidatePattern
        (⟨[("exercises:all", ⟨some 1, 0, 1000⟩), ("exercises:42", ⟨some 2, 0, 1000⟩),
           ("exercise_tags:1", ⟨some 3, 0, 1000⟩)], []⟩ : CacheState Int)
        (regexTest "exercises:")).cache "exercises:all" = none) ∧
    (mapGet (CacheManager.invalidatePattern
        (⟨[("exercises:all", ⟨some 1, 0, 1000⟩), ("exercises:42", ⟨some 2, 0, 1000⟩),
           ("exercise_tags:1", ⟨some 3, 0, 1000⟩)], []⟩ : CacheState Int)
        (regexTest "exercises:")).cache "exercises:42" = none) ∧
    (mapGet (CacheManager.invalidatePattern
        (⟨[("exercises:all", ⟨some 1, 0, 1000⟩), ("exercises:42", ⟨some 2, 0, 1000⟩),
           ("exercise_tags:1", ⟨some 3, 0, 1000⟩)], []⟩ : CacheState Int)
        (regexTest "exercises:")).cache "exercise_tags:1" = some ⟨some 3, 0, 1000⟩) := by
  refine ⟨?_, ?_, ?_⟩ <;>
    rw [invalidatePattern_removes_exactly_matching Int _ _ rfl (by decide)] <;>
    decide

/-- **C3.** Once strictly more time than the resolved TTL has elapsed since
the `set` that created an entry, `get` returns absent and deletes the
entry (no `cleanup()` call involved); a key that was never stored also
returns absent, with the state untouched — the two cases both surface as
`none` to the caller. -/
theorem get_expired_absent (V : Type) (st : CacheState V) (key : String)
    (v : Option V) (ttl : Option Int) (t0 now : Int)
    (hnodup : (mapKeys st.cache).Nodup)
    (hexp : now - t0 > resolveTtl ttl) :
    ((CacheManager.get (CacheManager.set st key v ttl t0) key now).1 = none ∧
     mapGet (CacheManager.get (CacheManager.set st key v ttl t0) key now).2.cache
       key = none) ∧
    ∀ (st2 : CacheState V) (k2 : String), mapGet st2.cache k2 = none →
      CacheManager.get st2 k2 now = (none, st2) := by
  have hset : mapGet (CacheManager.set st key v ttl t0).cache key =
      some ⟨v, t0, resolveTtl ttl⟩ := mapGet_mapSet_self st.cache key _
  have hn : (mapKeys (CacheManager.set st key v ttl t0).cache).Nodup :=
    nodup_mapSet key _ hnodup
  have hget : CacheManager.get (CacheManager.set st key v ttl t0) key now =
      (none, { CacheManager.set st key v ttl t0 with
        cache := mapDelete (CacheManager.set st key v ttl t0).cache key }) := by
    simp [CacheManager.get, hset, hexp]
  refine ⟨⟨?_, ?_⟩, ?_⟩
  · simp [hget]
  · rw [hget]
    simp only
    rw [mapGet_mapDelete key key hn]
    simp
  · intro st2 k2 h2
    simp [CacheManager.get, h2]

/-- Witness for C3: TTL 100, set at time 0, read at time 150 → absent and
removed; and the never-set key "other" is absent with identical output. -/
theorem get_expired_absent_witness :
    ((CacheManager.get (CacheManager.set (⟨[], []⟩ : CacheState Int) "k"
        (some 7) (some 100) 0) "k" 150).1 = none ∧
     mapGet (CacheManager.get (CacheManager.set (⟨[], []⟩ : CacheState Int) "k"
        (some 7) (some 100) 0) "k" 150).2.cache "k" = none) ∧
    CacheManager.get (⟨[], []⟩ : CacheState Int) "other" 150 =
      (none, (⟨[], []⟩ : CacheState Int)) :=
  ⟨(get_expired_absent Int ⟨[], []⟩ "k" (some 7) (some 100) 0 150 (by decide)
      (by decide)).1,
   (get_expired_absent Int ⟨[], []⟩ "k" (some 7) (some 100) 0 150 (by decide)
      (by decide)).2 ⟨[], []⟩ "other" rfl⟩

/-- **C4 (counterexample).** The claim "for every fetch function, two
`getOrFetch` calls within the TTL invoke the fetch exactly once" is false:
a fetch function resolving to the JS value `null` (modelled `none`) is
invoked by *both* calls (both at time 0, well within the default TTL),
because the stored `null` is indistinguishable from a miss. -/
theorem getOrFetch_twice_counterexample :
    (CacheManager.getOrFetch (⟨[], []⟩ : CacheState Int) "k" none none 0).2.2
      = true ∧
    (CacheManager.getOrFetch
      (CacheManager.getOrFetch (⟨[], []⟩ : CacheState Int) "k" none none
        0).2.1 "k" none none 0).2.2 = true := by
  decide

/-- **C4 (amended).** For a fetch function resolving to a non-null value
and a key not currently cached, calling `getOrFetch` twice within the TTL
window invokes the fetch exactly once: the first call fetches and returns
the value, the second call (with an arbitrary second fetch result `f2`,
showing the fetch is not consulted) returns the cached value without
fetching. -/
theorem getOrFetch_memoizes_within_ttl (V : Type) (st : CacheState V)
    (k : String) (v : V) (f2 : Option V) (ttl : Option Int) (t1 t2 : Int)
    (hmiss : mapGet st.cache k = none)
    (hfresh : ¬ t2 - t1 > resolveTtl ttl) :
    (CacheManager.getOrFetch st k (some v) ttl t1).2.2 = true ∧
    (CacheManager.getOrFetch st k (some v) ttl t1).1 = some v ∧
    (CacheManager.getOrFetch
      (CacheManager.getOrFetch st k (some v) ttl t1).2.1 k f2 ttl t2).2.2
        = false ∧
    (CacheManager.getOrFetch
      (CacheManager.getOrFetch st k (some v) ttl t1).2.1 k f2 ttl t2).1
        = some v := by
  have h1 : CacheManager.getOrFetch st k (some v) ttl t1 =
      (some v, CacheManager.set st k (some v) ttl t1, true) := by
    simp [CacheManager.getOrFetch, CacheManager.get, hmiss]
  have hset : mapGet (CacheManager.set st k (some v) ttl t1).cache k =
      some ⟨some v, t1, resolveTtl ttl⟩ := mapGet_mapSet_self st.cache k _
  have h2 : CacheManager.getOrFetch (CacheManager.set st k (some v) ttl t1) k
      f2 ttl t2 = (some v, CacheManager.set st k (some v) ttl t1, false) := by
    simp [CacheManager.getOrFetch, CacheManager.get, hset, hfresh]
  refine ⟨?_, ?_, ?_, ?_⟩ <;> simp [h1, h2]

/-- Witness for C4 (amended): empty cache, value 42, default TTL, second
call 1000 ms later. -/
theorem getOrFetch_memoizes_within_ttl_witness :
    (CacheManager.getOrFetch (⟨[], []⟩ : CacheState Int) "k" (some 42) none
      0).2.2 = true ∧
    (CacheManager.getOrFetch (⟨[], []⟩ : CacheState Int) "k" (some 42) none
      0).1 = some 42 ∧
    (CacheManager.getOrFetch
      (CacheManager.getOrFetch (⟨[], []⟩ : CacheState Int) "k" (some 42) none
        0).2.1 "k" none none 1000).2.2 = false ∧
    (CacheManager.getOrFetch
      (CacheManager.getOrFetch (⟨[], []⟩ : CacheState Int) "k" (some 42) none
        0).2.1 "k" none none 1000).1 = some 42 :=
  getOrFetch_memoizes_within_ttl Int ⟨[], []⟩ "k" 42 none none 0 1000 rfl
    (by decide)

/-- **C5 (counterexample).** The claim that `invalidate` removes every key
reachable through dependency chains of more than one edge is false: with
edges `a → b` and `b → c` registered and all three keys cached,
`invalidate "a"` removes `a` and `b` but leaves `c` cached. -/
theorem invalidate_multihop_counterexample :
    (mapGet (CacheManager.invalidate
      (⟨[("a", ⟨some 1, 0, 1000⟩), ("b", ⟨some 2, 0, 1000⟩),
         ("c", ⟨some 3, 0, 1000⟩)],
        [("a", ["b"]), ("b", ["c"])]⟩ : CacheState Int) "a").cache "c" =
      some ⟨some 3, 0, 1000⟩) ∧
    (mapGet (CacheManager.invalidate
      (⟨[("a", ⟨some 1, 0, 1000⟩), ("b", ⟨some 2, 0, 1000⟩),
         ("c", ⟨some 3, 0, 1000⟩)],
        [("a", ["b"]), ("b", ["c"])]⟩ : CacheState Int) "a").cache "a" = none) ∧
    (mapGet (CacheManager.invalidate
      (⟨[("a", ⟨some 1, 0, 1000⟩), ("b", ⟨some 2, 0, 1000⟩),
         ("c", ⟨some 3, 0, 1000⟩)],
        [("a", ["b"]), ("b", ["c"])]⟩ : CacheState Int) "a").cache "b" = none) := by
  decide

/-- **C5 (amended).** `invalidate k` removes the entry for `k` and the
entries for exactly the keys registered as *direct* dependents of `k`
(a single level of the dependency graph); every other entry survives. -/
theorem invalidate_removes_key_and_direct_dependents (V : Type)
    (st : CacheState V) (k : String)
    (hnodup : (mapKeys st.cache).Nodup) (j : String) :
    mapGet (CacheManager.invalidate st k).cache j =
      if j = k ∨ j ∈ (mapGet st.dependencies k).getD [] then none
      else mapGet st.cache j :=
  invalidate_one_level st k hnodup j

/-- Witness for C5 (amended): with the edge `a → b` registered, invalidating
`a` removes `a` and `b` and leaves `z` untouched. -/
theorem invalidate_removes_key_and_direct_dependents_witness :
    (mapGet (CacheManager.invalidate
      (⟨[("a", ⟨some 1, 0, 9⟩), ("b", ⟨some 2, 0, 9⟩), ("z", ⟨some 3, 0, 9⟩)],
        [("a", ["b"])]⟩ : CacheState Int) "a").cache "a" = none) ∧
    (mapGet (CacheManager.invalidate
      (⟨[("a", ⟨some 1, 0, 9⟩), ("b", ⟨some 2, 0, 9⟩), ("z", ⟨some 3, 0, 9⟩)],
        [("a", ["b"])]⟩ : CacheState Int) "a").cache "b" = none) ∧
    (mapGet (CacheManager.invalidate
      (⟨[("a", ⟨some 1, 0, 9⟩), ("b", ⟨some 2, 0, 9⟩), ("z", ⟨some 3, 0, 9⟩)],
        [("a", ["b"])]⟩ : CacheState Int) "a").cache "z" = some ⟨some 3, 0, 9⟩) := by
  refine ⟨?_, ?_, ?_⟩ <;>
    rw [invalidate_removes_key_and_direct_dependents Int _ "a" (by decide)] <;>
    decide

/-- **C6.** For a set mutation with session id `s` and exercise id `e`, the
invalidation policy `onSetChange` removes exactly the cache entries for
`sets:session:s`, `sets:exercise:e`, `exercises:recent` and `sessions:s`,
and no other key.  (The dependency map is empty: `addDependency` is never
called in this repository.) -/
theorem onSetChange_invalidates_exactly_four_keys (V : Type)
    (st : CacheState V) (s e : Int)
    (hdeps : st.dependencies = [])
    (hnodup : (mapKeys st.cache).Nodup) (j : String) :
    mapGet (CacheInvalidation.onSetChange st s e).cache j =
      if j = CacheKeys.setsBySession s ∨ j = CacheKeys.setsByExercise e ∨
         j = CacheKeys.recentExercises ∨ j = CacheKeys.sessionById s then none
      else mapGet st.cache j := by
  have hfold := mapGet_foldl_mapDelete
    [CacheKeys.setsBySession s, CacheKeys.setsByExercise e,
     CacheKeys.recentExercises, CacheKeys.sessionById s] st.cache j hnodup
  simp only [List.foldl_cons, List.foldl_nil, List.mem_cons,
    List.not_mem_nil, or_false] at hfold
  have hF := foldl_invalidate_of_dependencies_nil
    [CacheKeys.setsBySession s, CacheKeys.setsByExercise e,
     CacheKeys.recentExercises, CacheKeys.sessionById s] st hdeps
  simp only [List.foldl_cons, List.foldl_nil] at hF
  simp only [CacheInvalidation.onSetChange]
  rw [hF]
  exact hfold

/-- Witness for C6: session 1, exercise 2; the four policy keys are removed
and the unrelated key `tags:all` survives. -/
theorem onSetChange_invalidates_exactly_four_keys_witness :
    (mapGet (CacheInvalidation.onSetChange
      (⟨[("sets:session:1", ⟨some 1, 0, 9⟩), ("sets:exercise:2", ⟨some 2, 0, 9⟩),
         ("exercises:recent", ⟨some 3, 0, 9⟩), ("sessions:1", ⟨some 4, 0, 9⟩),
         ("tags:all", ⟨some 5, 0, 9⟩)], []⟩ : CacheState Int) 1 2).cache
      "sets:session:1" = none) ∧
    (mapGet (CacheInvalidation.onSetChange
      (⟨[("sets:session:1", ⟨some 1, 0, 9⟩), ("sets:exercise:2", ⟨some 2, 0, 9⟩),
         ("exercises:recent", ⟨some 3, 0, 9⟩), ("sessions:1", ⟨some 4, 0, 9⟩),
         ("tags:all", ⟨some 5, 0, 9⟩)], []⟩ : CacheState Int) 1 2).cache
      "sessions:1" = none) ∧
    (mapGet (CacheInvalidation.onSetChange
      (⟨[("sets:session:1", ⟨some 1, 0, 9⟩), ("sets:exercise:2", ⟨some 2, 0, 9⟩),
         ("exercises:recent", ⟨some 3, 0, 9⟩), ("sessions:1", ⟨some 4, 0, 9⟩),
         ("tags:all", ⟨some 5, 0, 9⟩)], []⟩ : CacheState Int) 1 2).cache
      "tags:all" = some ⟨some 5, 0, 9⟩) := by
  refine ⟨?_, ?_, ?_⟩ <;>
    rw [onSetChange_invalidates_exactly_four_keys Int _ 1 2 rfl (by decide)] <;>
    decide

/-- **C10.** A fetch function resolving to `null` has its `null` stored in
the cache, yet `get` on the key returns absent (while leaving the stored
entry in place) and a subsequent `getOrFetch` within the TTL treats the
key as a miss and invokes the fetch function again, returning the new
fetch's result: stored `null` is never served from the cache. -/
theorem stored_null_never_served (V : Type) (st : CacheState V) (k : String)
    (f2 : Option V) (ttl : Option Int) (t1 t2 : Int)
    (hmiss : mapGet st.cache k = none)
    (hfresh : ¬ t2 - t1 > resolveTtl ttl) :
    mapGet (CacheManager.getOrFetch st k none ttl t1).2.1.cache k =
      some ⟨none, t1, resolveTtl ttl⟩ ∧
    (CacheManager.get (CacheManager.getOrFetch st k none ttl t1).2.1 k t2).1
      = none ∧
    (CacheManager.get (CacheManager.getOrFetch st k none ttl t1).2.1 k t2).2
      = (CacheManager.getOrFetch st k none ttl t1).2.1 ∧
    (CacheManager.getOrFetch
      (CacheManager.getOrFetch st k none ttl t1).2.1 k f2 ttl t2).2.2
        = true ∧
    (CacheManager.getOrFetch
      (CacheManager.getOrFetch st k none ttl t1).2.1 k f2 ttl t2).1 = f2 := by
  have h1 : CacheManager.getOrFetch st k none ttl t1 =
      (none, CacheManager.set st k none ttl t1, true) := by
    simp [CacheManager.getOrFetch, CacheManager.get, hmiss]
  have hset : mapGet (CacheManager.set st k none ttl t1).cache k =
      some ⟨none, t1, resolveTtl ttl⟩ := mapGet_mapSet_self st.cache k _
  have hget : CacheManager.get (CacheManager.set st k none ttl t1) k t2 =
      (none, CacheManager.set st k none ttl t1) := by
    simp [CacheManager.get, hset, hfresh]
  have h2 : CacheManager.getOrFetch (CacheManager.set st k none ttl t1) k f2
      ttl t2 =
      (f2, CacheManager.set (CacheManager.set st k none ttl t1) k f2 ttl t2,
        true) := by
    simp [CacheManager.getOrFetch, hget]
  refine ⟨?_, ?_, ?_, ?_, ?_⟩ <;> simp [h1, hget, h2, hset]

/-- Witness for C10: empty cache, null fetch at time 0, re-read at 1000 ms
(default TTL), second fetch resolving to 5. -/
theorem stored_null_never_served_witness :
    mapGet (CacheManager.getOrFetch (⟨[], []⟩ : CacheState Int) "k" none none
      0).2.1.cache "k" = some ⟨none, 0, DEFAULT_TTL⟩ ∧
    (CacheManager.get (CacheManager.getOrFetch (⟨[], []⟩ : CacheState Int) "k"
      none none 0).2.1 "k" 1000).1 = none ∧
    (CacheManager.getOrFetch
      (CacheManager.getOrFetch (⟨[], []⟩ : CacheState Int) "k" none none
        0).2.1 "k" (some 5) none 1000).2.2 = true ∧
    (CacheManager.getOrFetch
      (CacheManager.getOrFetch (⟨[], []⟩ : CacheState Int) "k" none none
        0).2.1 "k" (some 5) none 1000).1 = some 5 := by
  have h := stored_null_never_served Int ⟨[], []⟩ "k" (some 5) none 0 1000 rfl
    (by decide)
  exact ⟨h.1, h.2.1, h.2.2.2.1, h.2.2.2.2⟩

/-! ## Data model (src/database/schema.ts, src/types/index.ts) -/

/-- `type TimeOfDay = 'morning' | 'afternoon' | 'evening'`. -/
inductive TimeOfDay
  | morning
  | afternoon
  | evening
deriving Repr, DecidableEq

/-- Weight unit enum `'kg' | 'lbs'`. -/
inductive WeightUnit
  | kg
  | lbs
deriving Repr, DecidableEq

/-- A row of `exercises` (columns irrelevant to the claims elided). -/
structure ExerciseRow where
  id : Int
  name : String
  notes : Option String
  default_weight : Option Int
  default_reps : Option Int
  unit : WeightUnit
deriving Repr, DecidableEq

/-- A row of `tags`. -/
structure TagRow where
  id : Int
  name : String
  color : String
deriving Repr, DecidableEq

/-- A row of `workout_sessions`. -/
structure SessionRow where
  id : Int
  date : String
  time_of_day : Option TimeOfDay
deriving Repr, DecidableEq

/-- A row of `sets`. -/
structure SetRow where
  id : Int
  session_id : Int
  exercise_id : Int
  weight : Int
  reps : Int
  is_warmup : Bool
  is_failure : Bool
  notes : Option String
  set_order : Int
deriving Repr, DecidableEq

/-- The relational store, with the `AUTOINCREMENT` counters made explicit
(`lastInsertRowId` of an insert is the `next…Id` at the time of the
insert). -/
structure DB where
  exercises : List ExerciseRow
  tags : List TagRow
  exercise_tags : List (Int × Int)
  sessions : List SessionRow
  sets : List SetRow
  nextExerciseId : Int
  nextSessionId : Int
  nextSetId : Int
deriving Repr, DecidableEq

/-- Database plus the process-wide cache singleton, as the services see
them. -/
structure AppState (V : Type) where
  db : DB
  cache : CacheState V
deriving Repr, DecidableEq

/-- Error taxonomy of src/utils/errors.ts, as it reaches service callers
(engine failures already classified by `parseSQLiteError`). -/
inductive AppError
  | validation (message : String) (field : Option String)
  | notFound (resource : String) (id : Int)
  | duplicate (resource : String) (field : String)
  | constraint (message : String)
deriving Repr, DecidableEq

/-- One statement issued to the persistence engine. -/
inductive Stmt
  | query (sql : String)
  | run (sql : String)
deriving Repr, DecidableEq

/-- JS `x || 0` applied to a nullable number (`null` and `0` are falsy). -/
def jsOr0 : Option Int → Int
  | none => 0
  | some m => if m = 0 then 0 else m

/-- JS `x || null` on an optional string (`undefined` and `""` are falsy). -/
def jsStrOrNull : Option String → Option String
  | none => none
  | some s => if s = "" then none else some s

/-- JS `x || null` on an optional number (`undefined` and `0` are falsy). -/
def jsIntOrNull : Option Int → Option Int
  | none => none
  | some n => if n = 0 then none else some n

/-- JS `String.prototype.trim()`: strip leading and trailing whitespace. -/
def jsTrim (s : String) : String :=
  ⟨((s.toList.dropWhile Char.isWhitespace).reverse.dropWhile
      Char.isWhitespace).reverse⟩

/-- SQLite `COLLATE NOCASE` case folding (ASCII `A`–`Z` only). -/
def asciiLower (s : String) : String :=
  ⟨s.toList.map fun c =>
    if 'A' ≤ c ∧ c ≤ 'Z' then Char.ofNat (c.toNat + 32) else c⟩

/-- SQL `MAX` aggregate over an integer column; `NULL` (`none`) on an empty
selection. -/
def sqlMax : List Int → Option Int
  | [] => none
  | x :: xs =>
      match sqlMax xs with
      | none => some x
      | some m => some (max x m)

theorem le_of_mem_sqlMax {l : List Int} {q : Int} (h : q ∈ l) :
    ∃ m, sqlMax l = some m ∧ q ≤ m := by
  induction l with
  | nil => cases h
  | cons x xs ih =>
      rcases List.mem_cons.1 h with rfl | h'
      · rcases hs : sqlMax xs with _ | m
        · exact ⟨q, by simp [sqlMax, hs], le_refl q⟩
        · exact ⟨max q m, by simp [sqlMax, hs], le_max_left q m⟩
      · rcases ih h' with ⟨m', hm', hq⟩
        rcases hs : sqlMax xs with _ | m
        · rw [hs] at hm'; cases hm'
        · rw [hs] at hm'
          have hmm : m = m' := Option.some.inj hm'
          subst hmm
          exact ⟨max x m, by simp [sqlMax, hs],
            le_trans hq (le_max_right x m)⟩

/-- `SELECT set_order FROM sets WHERE session_id = ?`: the orders currently
present in a session, in table order. -/
def sessionOrders (db : DB) (sessionId : Int) : List Int :=
  (db.sets.filter fun s => decide (s.session_id = sessionId)).map SetRow.set_order

/-- `interface SetFormData` (src/types/index.ts). -/
structure SetFormData where
  exerciseId : Int
  weight : Int
  reps : Int
  isWarmup : Bool
  isFailure : Bool
  notes : Option String
deriving Repr, DecidableEq

/-- The `data` argument of `ExerciseService.createExercise`. -/
structure ExerciseFormInput where
  name : String
  notes : Option String
  defaultWeight : Option Int
  defaultReps : Option Int
  unit : Option WeightUnit
  tagIds : Option (List Int)
deriving Repr, DecidableEq

/-- The date regex `/^\d{4}-\d{2}-\d{2}$/` of
`WorkoutService.getOrCreateSession`. -/
def validDateFormat (s : String) : Bool :=
  match s.toList with
  | [y1, y2, y3, y4, h1, m1, m2, h2, d1, d2] =>
      y1.isDigit && y2.isDigit && y3.isDigit && y4.isDigit && h1 == '-' &&
      m1.isDigit && m2.isDigit && h2 == '-' && d1.isDigit && d2.isDigit
  | _ => false

namespace ExerciseService

/-- `ExerciseService.addSet(sessionId, data)` (src ExerciseService).
Returns the outcome, the final application state, and the trace of
statements issued to the persistence engine.  Validation failures return
before any statement is issued; the `INSERT` fails (and changes nothing)
when a foreign key — the session or the exercise — does not exist. -/
def addSet (V : Type) (st : AppState V) (sessionId : Int) (d : SetFormData) :
    Except AppError Int × AppState V × List Stmt :=
  if d.weight < 0 then
    (.error (.validation "Weight cannot be negative" (some "weight")), st, [])
  else if d.reps < 0 then
    (.error (.validation "Reps cannot be negative" (some "reps")), st, [])
  else
    let maxOrder := sqlMax (sessionOrders st.db sessionId)
    let setOrder := jsOr0 maxOrder + 1
    let trace :=
      [Stmt.query "SELECT MAX(set_order) as max_order FROM sets WHERE session_id = ?",
       Stmt.run "INSERT INTO sets (session_id, exercise_id, weight, reps, is_warmup, is_failure, notes, set_order) VALUES (?, ?, ?, ?, ?, ?, ?, ?)"]
    if (st.db.sessions.any fun s => decide (s.id = sessionId)) &&
       (st.db.exercises.any fun e => decide (e.id = d.exerciseId)) then
      let row : SetRow :=
        { id := st.db.nextSetId, session_id := sessionId,
          exercise_id := d.exerciseId, weight := d.weight, reps := d.reps,
          is_warmup := d.isWarmup, is_failure := d.isFailure,
          notes := jsStrOrNull d.notes, set_order := setOrder }
      (.ok row.id,
       { db := { st.db with
                   sets := st.db.sets ++ [row],
                   nextSetId := st.db.nextSetId + 1 },
         cache := CacheInvalidation.onSetChange st.cache sessionId d.exerciseId },
       trace)
    else
      (.error (.constraint "Invalid reference to related data"), st, trace)

/-- `ExerciseService.deleteSet(id)`. -/
def deleteSet (V : Type) (st : AppState V) (id : Int) :
    Except AppError Unit × AppState V × List Stmt :=
  match st.db.sets.find? (fun s => decide (s.id = id)) with
  | none =>
      (.error (.notFound "Set" id), st,
       [Stmt.query "SELECT * FROM sets WHERE id = ?"])
  | some existing =>
      (.ok (),
       { db := { st.db with
           sets := st.db.sets.filter fun s => decide (¬ s.id = id) },
         cache := CacheInvalidation.onSetChange st.cache existing.session_id
           existing.exercise_id },
       [Stmt.query "SELECT * FROM sets WHERE id = ?",
        Stmt.run "DELETE FROM sets WHERE id = ?"])

/-- The loop inserting `exercise_tags` rows inside `createExercise`'s
transactional unit.  An insert fails on a missing tag (foreign key) or a
duplicate `(exercise_id, tag_id)` pair (primary key); the thrown engine
error aborts the whole unit. -/
def insertExerciseTags (db : DB) (exerciseId : Int) :
    List Int → Except AppError DB
  | [] => .ok db
  | tagId :: rest =>
      if db.tags.any (fun t => decide (t.id = tagId)) then
        if db.exercise_tags.contains (exerciseId, tagId) then
          .error (.duplicate "exercise_tags" "tag_id")
        else
          insertExerciseTags
            { db with exercise_tags := db.exercise_tags ++ [(exerciseId, tagId)] }
            exerciseId rest
      else
        .error (.constraint "Invalid reference to related data")

/-- The transactional unit of `createExercise`
(`db.transaction(async () => { ... })` run through
`withTransactionAsync`): insert the exercise (UNIQUE name, compared
`COLLATE NOCASE`), then the tag associations.  An `Except.error` models a
thrown error, which rolls the whole unit back — the pre-transaction `DB`
is simply kept by the caller. -/
def txCreateExercise (db : DB) (data : ExerciseFormInput) :
    Except AppError (Int × DB) :=
  if db.exercises.any
      (fun e => decide (asciiLower e.name = asciiLower (jsTrim data.name))) then
    .error (.duplicate "exercises" "name")
  else
    let exerciseId := db.nextExerciseId
    let row : ExerciseRow :=
      { id := exerciseId, name := jsTrim data.name,
        notes := jsStrOrNull data.notes,
        default_weight := jsIntOrNull data.defaultWeight,
        default_reps := jsIntOrNull data.defaultReps,
        unit := data.unit.getD .kg }
    let db1 := { db with
                 exercises := db.exercises ++ [row],
                 nextExerciseId := exerciseId + 1 }
    match data.tagIds with
    | none => .ok (exerciseId, db1)
    | some tagIds =>
        match insertExerciseTags db1 exerciseId tagIds with
        | .error e => .error e
        | .ok db2 => .ok (exerciseId, db2)

/-- `ExerciseService.createExercise(data)`: validation, then the
transactional unit, then — only on successful commit —
`CacheInvalidation.onExerciseChange(exerciseId)`. -/
def createExercise (V : Type) (st : AppState V) (data : ExerciseFormInput) :
    Except AppError Int × AppState V :=
  if jsTrim data.name = "" then
    (.error (.validation "Exercise name is required" (some "name")), st)
  else if (match data.defaultWeight with
           | some w => decide (w < 0)
           | none => false) then
    (.error (.validation "Weight cannot be negative" (some "defaultWeight")), st)
  else if (match data.defaultReps with
           | some r => decide (r < 0)
           | none => false) then
    (.error (.validation "Reps cannot be negative" (some "defaultReps")), st)
  else
    match txCreateExercise st.db data with
    | .error e => (.error e, st)
    | .ok (exerciseId, db2) =>
        (.ok exerciseId,
         { db := db2,
           cache := CacheInvalidation.onExerciseChange st.cache
             (some exerciseId) })

end ExerciseService

namespace WorkoutService

/-- `WorkoutService.getOrCreateSession(date, timeOfDay)`: validate the date
format, look the session up by its natural key, insert only when absent
(`timeOfDay || null` equals `timeOfDay` here since the enum's values are
non-empty strings), and invalidate session caches after a fresh insert. -/
def getOrCreateSession (V : Type) (st : AppState V) (date : String)
    (timeOfDay : Option TimeOfDay) : Except AppError Int × AppState V :=
  if !validDateFormat date then
    (.error (.validation "Invalid date format. Use YYYY-MM-DD" (some "date")),
     st)
  else
    match st.db.sessions.find? (fun s =>
        match timeOfDay with
        | some t => decide (s.date = date ∧ s.time_of_day = some t)
        | none => decide (s.date = date ∧ s.time_of_day = none)) with
    | some existing => (.ok existing.id, st)
    | none =>
        let row : SessionRow :=
          { id := st.db.nextSessionId, date := date, time_of_day := timeOfDay }
        (.ok row.id,
         { db := { st.db with
                     sessions := st.db.sessions ++ [row],
                     nextSessionId := st.db.nextSessionId + 1 },
           cache := CacheInvalidation.onSessionChange st.cache (some row.id)
             (some date) })

end WorkoutService

/-! ## Supporting lemmas for the service layer -/

theorem jsOr0_some (m : Int) : jsOr0 (some m) = m := by
  by_cases h : m = 0 <;> simp [jsOr0, h]

theorem find?_append_of_none {α : Type} {l1 : List α} {p : α → Bool}
    (h : l1.find? p = none) (l2 : List α) :
    (l1 ++ l2).find? p = l2.find? p := by
  induction l1 with
  | nil => simp
  | cons x xs ih =>
      cases hp : p x
      · rw [List.cons_append, List.find?_cons_of_neg _ (by simp [hp])]
        rw [List.find?_cons_of_neg _ (by simp [hp])] at h
        exact ih h
      · rw [List.find?_cons_of_pos _ hp] at h
        cases h

/-! ## Claim theorems: service layer -/

/-- **C9.** An `addSet` call whose input has a negative weight or negative
reps raises a Validation error before any persistence-engine statement is
issued (empty statement trace) and leaves the application state — the
`sets` table, the rest of the store, and the cache — unchanged. -/
theorem addSet_validation_precedes_mutation (V : Type) (st : AppState V)
    (sessionId : Int) (d : SetFormData)
    (h : d.weight < 0 ∨ d.reps < 0) :
    (∃ msg f, (ExerciseService.addSet V st sessionId d).1 =
      .error (.validation msg f)) ∧
    (ExerciseService.addSet V st sessionId d).2.1 = st ∧
    (ExerciseService.addSet V st sessionId d).2.2 = [] := by
  by_cases hw : d.weight < 0
  · refine ⟨⟨"Weight cannot be negative", some "weight", ?_⟩, ?_, ?_⟩ <;>
      simp [ExerciseService.addSet, hw]
  · rcases h with h | hr
    · exact absurd h hw
    · refine ⟨⟨"Reps cannot be negative", some "reps", ?_⟩, ?_, ?_⟩ <;>
      simp [ExerciseService.addSet, hw, hr]

/-- Witness for C9: weight −5 against a populated state; the call errors,
issues no statement, and preserves db and cache exactly. -/
theorem addSet_validation_precedes_mutation_witness :
    (ExerciseService.addSet Int
      ⟨⟨[⟨1, "Squat", none, none, none, .kg⟩], [], [],
        [⟨1, "2024-03-01", some .morning⟩], [], 2, 2, 1⟩,
       ⟨[("sets:session:1", ⟨some 3, 0, 9⟩)], []⟩⟩ 1
      ⟨1, -5, 5, false, false, none⟩).2.1 =
      ⟨⟨[⟨1, "Squat", none, none, none, .kg⟩], [], [],
        [⟨1, "2024-03-01", some .morning⟩], [], 2, 2, 1⟩,
       ⟨[("sets:session:1", ⟨some 3, 0, 9⟩)], []⟩⟩ ∧
    (ExerciseService.addSet Int
      ⟨⟨[⟨1, "Squat", none, none, none, .kg⟩], [], [],
        [⟨1, "2024-03-01", some .morning⟩], [], 2, 2, 1⟩,
       ⟨[("sets:session:1", ⟨some 3, 0, 9⟩)], []⟩⟩ 1
      ⟨1, -5, 5, false, false, none⟩).2.2 = [] :=
  (addSet_validation_precedes_mutation Int
    ⟨⟨[⟨1, "Squat", none, none, none, .kg⟩], [], [],
      [⟨1, "2024-03-01", some .morning⟩], [], 2, 2, 1⟩,
     ⟨[("sets:session:1", ⟨some 3, 0, 9⟩)], []⟩⟩ 1
    ⟨1, -5, 5, false, false, none⟩ (Or.inl (by decide))).2

/-- **C8.** A valid `addSet` succeeds with id `nextSetId`, appends exactly
one row whose `set_order` is `MAX(set_order)` of the session (JS
`|| 0`-defaulted) plus one, and that order is strictly greater than every
order currently present in the session — existing rows are untouched, so
orders are never reused or renumbered. -/
theorem addSet_assigns_next_order (V : Type) (st : AppState V)
    (sessionId : Int) (d : SetFormData)
    (hw : ¬ d.weight < 0) (hr : ¬ d.reps < 0)
    (hsess : (st.db.sessions.any fun s => decide (s.id = sessionId)) = true)
    (hex : (st.db.exercises.any fun e => decide (e.id = d.exerciseId)) = true) :
    ∃ row : SetRow,
      (ExerciseService.addSet V st sessionId d).1 = .ok st.db.nextSetId ∧
      (ExerciseService.addSet V st sessionId d).2.1.db.sets =
        st.db.sets ++ [row] ∧
      row.set_order = jsOr0 (sqlMax (sessionOrders st.db sessionId)) + 1 ∧
      ∀ q ∈ sessionOrders st.db sessionId, q < row.set_order := by
  refine ⟨{ id := st.db.nextSetId, session_id := sessionId,
            exercise_id := d.exerciseId, weight := d.weight, reps := d.reps,
            is_warmup := d.isWarmup, is_failure := d.isFailure,
            notes := jsStrOrNull d.notes,
            set_order := jsOr0 (sqlMax (sessionOrders st.db sessionId)) + 1 },
         ?_, ?_, rfl, ?_⟩
  · simp [ExerciseService.addSet, hw, hr, hsess, hex]
  · simp [ExerciseService.addSet, hw, hr, hsess, hex]
  · intro q hq
    rcases le_of_mem_sqlMax hq with ⟨m, hm, hqm⟩
    simp only [hm, jsOr0_some]
    omega

/-- Concrete scenario state for the set-ordering claim: one exercise, one
empty session, empty cache. -/
def orderScenarioStart : AppState Int :=
  ⟨⟨[⟨1, "Squat", none, none, none, .kg⟩], [], [],
    [⟨1, "2024-03-01", some .morning⟩], [], 2, 2, 1⟩, ⟨[], []⟩⟩

/-- The set submitted in each step of the ordering scenario. -/
def orderScenarioSet : SetFormData := ⟨1, 100, 5, false, false, none⟩

/-- Scenario state after three inserts into the empty session. -/
def orderScenarioAfterThree : AppState Int :=
  (ExerciseService.addSet Int
    (ExerciseService.addSet Int
      (ExerciseService.addSet Int orderScenarioStart 1 orderScenarioSet).2.1
      1 orderScenarioSet).2.1
    1 orderScenarioSet).2.1

/-- Scenario state after deleting the middle set (id 2, order 2). -/
def orderScenarioAfterDelete : AppState Int :=
  (ExerciseService.deleteSet Int orderScenarioAfterThree 2).2.1

/-- Witness for C8, running the spec's scenario: three inserts yield orders
1, 2, 3; deleting the middle one leaves [1, 3]; the theorem applies to the
fourth insert, which receives order 4 (never reusing 2). -/
theorem addSet_assigns_next_order_witness :
    sessionOrders orderScenarioAfterThree.db 1 = [1, 2, 3] ∧
    sessionOrders orderScenarioAfterDelete.db 1 = [1, 3] ∧
    (∃ row : SetRow,
      (ExerciseService.addSet Int orderScenarioAfterDelete 1
        orderScenarioSet).1 = .ok orderScenarioAfterDelete.db.nextSetId ∧
      (ExerciseService.addSet Int orderScenarioAfterDelete 1
        orderScenarioSet).2.1.db.sets =
          orderScenarioAfterDelete.db.sets ++ [row] ∧
      row.set_order =
        jsOr0 (sqlMax (sessionOrders orderScenarioAfterDelete.db 1)) + 1 ∧
      ∀ q ∈ sessionOrders orderScenarioAfterDelete.db 1,
        q < row.set_order) ∧
    sessionOrders (ExerciseService.addSet Int orderScenarioAfterDelete 1
      orderScenarioSet).2.1.db 1 = [1, 3, 4] :=
  ⟨by decide, by decide,
   addSet_assigns_next_order Int orderScenarioAfterDelete 1 orderScenarioSet
     (by decide) (by decide) (by decide) (by decide),
   by decide⟩

/-- **C7.** When no session with the natural key `(date, timeOfDay)`
exists, the first `getOrCreateSession` call inserts exactly one
`workout_sessions` row and returns its id (`nextSessionId`); the second
call with the same arguments returns the same id and changes nothing. -/
theorem getOrCreateSession_idempotent (V : Type) (st : AppState V)
    (date : String) (t : TimeOfDay)
    (hdate : validDateFormat date = true)
    (habsent : st.db.sessions.find? (fun s =>
      decide (s.date = date ∧ s.time_of_day = some t)) = none) :
    (WorkoutService.getOrCreateSession V st date (some t)).1 =
      .ok st.db.nextSessionId ∧
    (WorkoutService.getOrCreateSession V st date (some t)).2.db.sessions =
      st.db.sessions ++ [⟨st.db.nextSessionId, date, some t⟩] ∧
    (WorkoutService.getOrCreateSession V
      (WorkoutService.getOrCreateSession V st date (some t)).2 date
      (some t)).1 = .ok st.db.nextSessionId ∧
    (WorkoutService.getOrCreateSession V
      (WorkoutService.getOrCreateSession V st date (some t)).2 date
      (some t)).2 =
      (WorkoutService.getOrCreateSession V st date (some t)).2 := by
  have hfind2 :
      (st.db.sessions ++
          ([{ id := st.db.nextSessionId, date := date,
              time_of_day := some t }] : List SessionRow)).find?
        (fun s => decide (s.date = date ∧ s.time_of_day = some t)) =
        some { id := st.db.nextSessionId, date := date,
               time_of_day := some t } := by
    rw [find?_append_of_none habsent]
    simp [List.find?]
  simp only [Bool.decide_and] at habsent hfind2
  have h1 : WorkoutService.getOrCreateSession V st date (some t) =
      (.ok st.db.nextSessionId,
       ⟨{ st.db with
          sessions := st.db.sessions ++ [⟨st.db.nextSessionId, date, some t⟩],
          nextSessionId := st.db.nextSessionId + 1 },
        CacheInvalidation.onSessionChange st.cache (some st.db.nextSessionId)
          (some date)⟩) := by
    simp [WorkoutService.getOrCreateSession, hdate, habsent]
  have h2 : WorkoutService.getOrCreateSession V
      (WorkoutService.getOrCreateSession V st date (some t)).2 date (some t) =
      (.ok st.db.nextSessionId,
       (WorkoutService.getOrCreateSession V st date (some t)).2) := by
    rw [h1]
    simp [WorkoutService.getOrCreateSession, hdate, hfind2]
  refine ⟨by simp [h1], by simp [h1], by simp [h2], by simp [h2]⟩

/-- Witness for C7: the spec's example `getOrCreateSession('2024-03-01',
'morning')` twice against an empty store. -/
theorem getOrCreateSession_idempotent_witness :
    (WorkoutService.getOrCreateSession Int
      ⟨⟨[], [], [], [], [], 1, 1, 1⟩, ⟨[], []⟩⟩ "2024-03-01"
      (some .morning)).1 = .ok 1 ∧
    (WorkoutService.getOrCreateSession Int
      ⟨⟨[], [], [], [], [], 1, 1, 1⟩, ⟨[], []⟩⟩ "2024-03-01"
      (some .morning)).2.db.sessions = [⟨1, "2024-03-01", some .morning⟩] ∧
    (WorkoutService.getOrCreateSession Int
      (WorkoutService.getOrCreateSession Int
        ⟨⟨[], [], [], [], [], 1, 1, 1⟩, ⟨[], []⟩⟩ "2024-03-01"
        (some .morning)).2 "2024-03-01" (some .morning)).1 = .ok 1 ∧
    (WorkoutService.getOrCreateSession Int
      (WorkoutService.getOrCreateSession Int
        ⟨⟨[], [], [], [], [], 1, 1, 1⟩, ⟨[], []⟩⟩ "2024-03-01"
        (some .morning)).2 "2024-03-01" (some .morning)).2 =
      (WorkoutService.getOrCreateSession Int
        ⟨⟨[], [], [], [], [], 1, 1, 1⟩, ⟨[], []⟩⟩ "2024-03-01"
        (some .morning)).2 :=
  getOrCreateSession_idempotent Int ⟨⟨[], [], [], [], [], 1, 1, 1⟩, ⟨[], []⟩⟩
    "2024-03-01" TimeOfDay.morning (by decide) rfl

/-- **C1.** For `createExercise` (the canonical transactional write unit:
exercise insert plus tag-association inserts), any error — validation or a
failing statement inside the unit — leaves the whole application state,
cache included, exactly as it was (the unit rolls back and no invalidation
runs); on success the final cache is exactly
`onExerciseChange(exerciseId)` applied to the pre-call cache over the
committed database, i.e. invalidation runs only after the unit returns
successfully. -/
theorem createExercise_invalidate_only_after_commit (V : Type)
    (st : AppState V) (data : ExerciseFormInput) :
    (∀ e, (ExerciseService.createExercise V st data).1 = .error e →
      (ExerciseService.createExercise V st data).2 = st) ∧
    (∀ id, (ExerciseService.createExercise V st data).1 = .ok id →
      ∃ db2, ExerciseService.txCreateExercise st.db data = .ok (id, db2) ∧
        (ExerciseService.createExercise V st data).2 =
          ⟨db2, CacheInvalidation.onExerciseChange st.cache (some id)⟩) := by
  by_cases h1 : jsTrim data.name = ""
  · constructor
    · intro e _
      simp [ExerciseService.createExercise, h1]
    · intro id hid
      simp [ExerciseService.createExercise, h1] at hid
  · cases h2 : (match data.defaultWeight with
        | some w => decide (w < 0)
        | none => false) with
    | true =>
        constructor
        · intro e _
          simp [ExerciseService.createExercise, h1, h2]
        · intro id hid
          simp [ExerciseService.createExercise, h1, h2] at hid
    | false =>
        cases h3 : (match data.defaultReps with
            | some r => decide (r < 0)
            | none => false) with
        | true =>
            constructor
            · intro e _
              simp [ExerciseService.createExercise, h1, h2, h3]
            · intro id hid
              simp [ExerciseService.createExercise, h1, h2, h3] at hid
        | false =>
            rcases htx : ExerciseService.txCreateExercise st.db data with
              e0 | p
            · constructor
              · intro e _
                simp [ExerciseService.createExercise, h1, h2, h3, htx]
              · intro id hid
                simp [ExerciseService.createExercise, h1, h2, h3, htx] at hid
            · obtain ⟨id0, db0⟩ := p
              constructor
              · intro e he
                simp [ExerciseService.createExercise, h1, h2, h3, htx] at he
              · intro id hid
                simp [ExerciseService.createExercise, h1, h2, h3, htx] at hid
                subst hid
                exact ⟨db0, rfl, by
                  simp [ExerciseService.createExercise, h1, h2, h3, htx]⟩

/-- Witness for C1.  Failing unit: creating "Bench" with tag id 99 while no
tags exist makes the second insert of the unit fail on its foreign key;
the call reports the error and the state — including the populated cache —
is exactly the pre-call state.  Successful unit: creating "Bench" with no
tags commits and the final cache is the invalidation policy applied to the
pre-call cache. -/
theorem createExercise_invalidate_only_after_commit_witness :
    (ExerciseService.createExercise Int
      ⟨⟨[], [], [], [], [], 1, 1, 1⟩,
       ⟨[("exercises:all", ⟨some 9, 0, 9⟩)], []⟩⟩
      ⟨"Bench", none, none, none, none, some [99]⟩).2 =
      ⟨⟨[], [], [], [], [], 1, 1, 1⟩,
       ⟨[("exercises:all", ⟨some 9, 0, 9⟩)], []⟩⟩ ∧
    (ExerciseService.createExercise Int
      ⟨⟨[], [], [], [], [], 1, 1, 1⟩,
       ⟨[("exercises:all", ⟨some 9, 0, 9⟩)], []⟩⟩
      ⟨"Bench", none, none, none, none, some [99]⟩).1 =
      .error (.constraint "Invalid reference to related data") ∧
    (∃ db2, ExerciseService.txCreateExercise ⟨[], [], [], [], [], 1, 1, 1⟩
        ⟨"Bench", none, none, none, none, none⟩ = .ok (1, db2) ∧
      (ExerciseService.createExercise Int
        ⟨⟨[], [], [], [], [], 1, 1, 1⟩,
         ⟨[("exercises:all", ⟨some 9, 0, 9⟩)], []⟩⟩
        ⟨"Bench", none, none, none, none, none⟩).2 =
        ⟨db2, CacheInvalidation.onExerciseChange
          ⟨[("exercises:all", ⟨some 9, 0, 9⟩)], []⟩ (some 1)⟩) :=
  ⟨(createExercise_invalidate_only_after_commit Int
      ⟨⟨[], [], [], [], [], 1, 1, 1⟩,
       ⟨[("exercises:all", ⟨some 9, 0, 9⟩)], []⟩⟩
      ⟨"Bench", none, none, none, none, some [99]⟩).1
      (AppError.constraint "Invalid reference to related data") rfl,
   rfl,
   (createExercise_invalidate_only_after_commit Int
      ⟨⟨[], [], [], [], [], 1, 1, 1⟩,
       ⟨[("exercises:all", ⟨some 9, 0, 9⟩)], []⟩⟩
      ⟨"Bench", none, none, none, none, none⟩).2 1 rfl⟩

end GymLog
